import Mathlib

/-!
Verification of the questionnaire engine (`src/src/engine.ts`,
`src/src/condition-evaluator.ts`, the response validator, and the
orchestration in `src/src/main.ts`) against its specification.

The TypeScript source is embedded shallowly:

* `QuestionConfig`, `QuestionnaireConfig`, `ValidationResult` mirror
  `src/src/types.ts`; the `type` field is kept as a raw `String` because at
  runtime it is an arbitrary JSON string (the validator has an explicit
  `default` branch for unknown types).
* JavaScript's `String.prototype.trim` and `toLowerCase` are modeled by
  `jsTrim` and `jsToLower`, defined directly on the character list so that
  they evaluate on concrete inputs.
* The JavaScript `Map<string, string>` used for the answer set is embedded
  as an insertion-ordered association list (`AnswerMap`) with the exact
  `Map.get` / `Map.set` semantics (`mapGet`, `mapSet`).
* Effectful code is embedded with explicit state: user input is a list of
  raw lines consumed in order, and the console interactions performed by the
  engine (`prompt`, `display`, `displayError`) are collected in an explicit
  `Interaction` trace.  The unbounded retry loop of `promptWithValidation`
  becomes structural recursion over the remaining input list; input
  exhaustion (the real program would keep blocking) is `Option.none`.
-/

namespace Questionnaire

/-- JavaScript `String.prototype.trim`: drop leading and trailing
whitespace. -/
def jsTrim (s : String) : String :=
  ⟨((s.data.dropWhile Char.isWhitespace).reverse.dropWhile Char.isWhitespace).reverse⟩

/-- JavaScript `String.prototype.toLowerCase` (over the basic alphabet). -/
def jsToLower (s : String) : String := ⟨s.data.map Char.toLower⟩

/-- One expected answer or an array thereof (`string | string[]` in
`src/src/types.ts`). -/
inductive ExpectedAnswer where
  | one (s : String)
  | many (l : List String)
deriving DecidableEq, Repr

/-- A display condition (`condition` field of `QuestionConfig` in
`src/src/types.ts`). -/
structure Condition where
  questionId : String
  expectedAnswer : ExpectedAnswer
deriving DecidableEq, Repr

/-- A question definition, from `src/src/types.ts`. -/
structure QuestionConfig where
  id : String
  text : String
  type : String
  choices : Option (List String) := none
  condition : Option Condition := none
deriving DecidableEq, Repr

/-- The questionnaire document, from `src/src/types.ts`. -/
structure QuestionnaireConfig where
  title : String
  questions : List QuestionConfig
deriving DecidableEq, Repr

/-- Result of validating a response, from `src/src/types.ts`
(`isValid : boolean`, `errorMessage?: string`). -/
structure ValidationResult where
  isValid : Bool
  errorMessage : Option String := none
deriving DecidableEq, Repr

/-- The answer set: a JavaScript `Map<string, string>` embedded as an
insertion-ordered association list. -/
abbrev AnswerMap := List (String × String)

/-- `Map.get`: the value stored under `k`, if any. -/
def mapGet (m : AnswerMap) (k : String) : Option String :=
  (m.find? (fun p => p.1 == k)).map Prod.snd

/-- `Map.set`: replace the value in place when the key is present (keeping
its insertion position), otherwise append a fresh entry. -/
def mapSet (m : AnswerMap) (k v : String) : AnswerMap :=
  if m.any (fun p => p.1 == k) then
    m.map (fun p => if p.1 == k then (k, v) else p)
  else
    m ++ [(k, v)]

/-! ### Response validator, from `ResponseValidator.validate` -/

/-- `validateText` from the validator source: any non-empty trimmed text
input is valid (emptiness was already checked by `validate`). -/
def validateText (_input : String) : ValidationResult := ⟨true, none⟩

/-- `validateYesNo` from the validator source: lower-case the (already
trimmed) input and accept exactly `yes`, `no`, `y`, `n`. -/
def validateYesNo (input : String) : ValidationResult :=
  let normalizedInput := jsToLower input
  if normalizedInput ∈ ["yes", "no", "y", "n"] then ⟨true, none⟩
  else ⟨false,
    some "Invalid input. Expected: yes, no, y, or n (case-insensitive). Please try again."⟩

/-- `validateMultipleChoice` from the validator source: missing or empty
`choices` is a configuration defect, otherwise exact case-sensitive
membership of the trimmed input in `choices`. -/
def validateMultipleChoice (input : String) (question : QuestionConfig) : ValidationResult :=
  match question.choices with
  | none => ⟨false, some "No choices defined for this question."⟩
  | some choices =>
    if choices.length = 0 then ⟨false, some "No choices defined for this question."⟩
    else if input ∈ choices then ⟨true, none⟩
    else ⟨false,
      some ("Invalid choice. Expected one of: " ++ String.intercalate ", " choices
        ++ ". Please try again.")⟩

/-- `ResponseValidator.validate`: trim, reject empty input, then dispatch on
the question type; unknown types are rejected by the `default` branch. -/
def validate (input : String) (question : QuestionConfig) : ValidationResult :=
  let trimmedInput := jsTrim input
  if trimmedInput = "" then
    ⟨false, some "Input cannot be empty. Please provide an answer."⟩
  else if question.type = "text" then validateText trimmedInput
  else if question.type = "yesno" then validateYesNo trimmedInput
  else if question.type = "multiple-choice" then validateMultipleChoice trimmedInput question
  else ⟨false, some ("Unknown question type: " ++ question.type)⟩

/-- A non-empty string stays non-empty after appending on the right. -/
theorem append_ne_empty_left (s t : String) (h : s ≠ "") : s ++ t ≠ "" := by
  intro he
  apply h
  have hdata : s.data ++ t.data = ([] : List Char) := by
    have := congrArg String.data he
    simpa [String.data_append] using this
  rcases List.append_eq_nil.mp hdata with ⟨hs, _⟩
  cases s
  simp_all

/-- Every `Invalid` outcome of `validate` carries a non-empty message, and
every `Valid` outcome carries none. -/
theorem validate_message_shape (input : String) (question : QuestionConfig) :
    ((validate input question).isValid = true ∧ (validate input question).errorMessage = none) ∨
    ((validate input question).isValid = false ∧
      ∃ m, (validate input question).errorMessage = some m ∧ m ≠ "") := by
  unfold validate validateText validateYesNo validateMultipleChoice
  by_cases h0 : jsTrim input = ""
  · right
    simp [h0]
  · by_cases h1 : question.type = "text"
    · left
      simp [h0, h1]
    · by_cases h2 : question.type = "yesno"
      · by_cases hm : jsToLower (jsTrim input) ∈ ["yes", "no", "y", "n"]
        · left
          simp [h0, h1, h2, hm]
        · right
          simp [h0, h1, h2, hm]
      · by_cases h3 : question.type = "multiple-choice"
        · rcases hch : question.choices with _ | choices
          · right
            simp [h0, h1, h2, h3, hch]
          · by_cases hlen : choices.length = 0
            · right
              simp [h0, h1, h2, h3, hch, hlen]
            · by_cases hmem : jsTrim input ∈ choices
              · left
                simp [h0, h1, h2, h3, hch, hlen, hmem]
              · right
                refine ⟨by simp [h0, h1, h2, h3, hch, hlen, hmem],
                  "Invalid choice. Expected one of: " ++ String.intercalate ", " choices
                    ++ ". Please try again.", by simp [h0, h1, h2, h3, hch, hlen, hmem], ?_⟩
                exact append_ne_empty_left _ _ (append_ne_empty_left _ _ (by decide))
        · right
          refine ⟨by simp [h0, h1, h2, h3],
            "Unknown question type: " ++ question.type, by simp [h0, h1, h2, h3], ?_⟩
          exact append_ne_empty_left _ _ (by decide)

/-! ### Condition evaluator, from `ConditionEvaluator.shouldDisplay` -/

/-- `ConditionEvaluator.shouldDisplay` from `src/src/condition-evaluator.ts`:
no condition means always display; an unanswered referenced question hides
the dependent question; otherwise the previous response is compared, after
lower-casing and trimming both sides, with each expected answer (a single
string is first wrapped into a one-element array, as `Array.isArray` does). -/
def shouldDisplay (question : QuestionConfig) (responses : AnswerMap) : Bool :=
  match question.condition with
  | none => true
  | some cond =>
    match mapGet responses cond.questionId with
    | none => false
    | some previousResponse =>
      let expectedAnswers := match cond.expectedAnswer with
        | .one s => [s]
        | .many l => l
      expectedAnswers.any (fun expected =>
        jsTrim (jsToLower expected) == jsTrim (jsToLower previousResponse))

/-- The expected answers as a list (`Array.isArray` normalization). -/
def expectedList : ExpectedAnswer → List String
  | .one s => [s]
  | .many l => l

/-- Normalization used when matching a condition: lower-case, then trim. -/
def normalizeAns (s : String) : String := jsTrim (jsToLower s)

/-- Reference definition following the specification's words (§4.2): `true`
with no condition; `false` when the referenced answer is absent; otherwise
membership of the normalized stored answer in the normalized expected set. -/
def shouldDisplaySpec (question : QuestionConfig) (answers : AnswerMap) : Bool :=
  match question.condition with
  | none => true
  | some cond =>
    match mapGet answers cond.questionId with
    | none => false
    | some stored =>
      decide (normalizeAns stored ∈ (expectedList cond.expectedAnswer).map normalizeAns)

theorem any_eq_mem_map_normalize (stored : String) (l : List String) :
    (l.any (fun expected => jsTrim (jsToLower expected) == jsTrim (jsToLower stored))) =
      decide (normalizeAns stored ∈ l.map normalizeAns) := by
  induction l with
  | nil => simp
  | cons a t ih =>
    simp only [List.any_cons, List.map_cons, List.mem_cons, ih, normalizeAns]
    by_cases hhead : jsTrim (jsToLower a) = jsTrim (jsToLower stored)
    · simp [hhead]
    · have : ¬ jsTrim (jsToLower stored) = jsTrim (jsToLower a) := fun h => hhead h.symm
      simp [hhead, this]

/-- C2: `shouldDisplay` agrees with the specification's three-case rule:
no condition → `true`; referenced answer absent → `false` (no error);
otherwise `true` iff the stored answer, normalized, equals some normalized
expected answer.  (The code lower-cases then trims; the reference uses the
same normalization on both sides, as the spec asks.) -/
theorem shouldDisplay_matches_spec (question : QuestionConfig) (answers : AnswerMap) :
    shouldDisplay question answers = shouldDisplaySpec question answers := by
  obtain ⟨qid, qtext, qty, qch, qcond⟩ := question
  cases qcond with
  | none => rfl
  | some cond =>
    simp only [shouldDisplay, shouldDisplaySpec]
    cases hg : mapGet answers cond.questionId with
    | none => rfl
    | some stored =>
      exact any_eq_mem_map_normalize stored (expectedList cond.expectedAnswer)

/-- C10: the display decision of a question carrying a condition reads only
the answer-set entry for `condition.questionId`: two answer maps that agree
on that entry (both absent, or both the same string) yield the same result. -/
theorem shouldDisplay_depends_only_on_referenced (question : QuestionConfig)
    (cond : Condition) (m1 m2 : AnswerMap)
    (hc : question.condition = some cond)
    (hagree : mapGet m1 cond.questionId = mapGet m2 cond.questionId) :
    shouldDisplay question m1 = shouldDisplay question m2 := by
  obtain ⟨qid, qtext, qty, qch, qcond⟩ := question
  simp only at hc
  subst hc
  simp only [shouldDisplay]
  rw [hagree]

/-! ### Claims about the validator -/

/-- C9: every rejection by `validate` carries a non-empty displayable
message, and every acceptance carries none. -/
theorem validate_result_invariant (input : String) (question : QuestionConfig) :
    ((validate input question).isValid = true ∧ (validate input question).errorMessage = none) ∨
    ((validate input question).isValid = false ∧
      ∃ m, (validate input question).errorMessage = some m ∧ m ≠ "") :=
  validate_message_shape input question

/-- C4: whitespace-only (or empty) raw input is rejected with the universal
empty-input message before any kind-specific rule can run, for every
question kind. -/
theorem validate_empty_input (input : String) (question : QuestionConfig)
    (h : jsTrim input = "") :
    validate input question =
      ⟨false, some "Input cannot be empty. Please provide an answer."⟩ := by
  simp [validate, h]

/-- Witness for C4 at the concrete whitespace input `"   "`. -/
theorem validate_empty_input_witness :
    jsTrim "   " = "" ∧
      validate "   " ⟨"q2", "Do you have a pet?", "yesno", none, none⟩ =
        ⟨false, some "Input cannot be empty. Please provide an answer."⟩ :=
  ⟨by decide, validate_empty_input "   " ⟨"q2", "Do you have a pet?", "yesno", none, none⟩ (by decide)⟩

/-- Reference dispatch following the words of the claim (C3): `Text` always
valid; `YesNo` valid iff the lower-cased trimmed input is one of yes/no/y/n;
`MultipleChoice` rejects a missing or empty choice list and otherwise tests
case-sensitive membership of the trimmed input; unknown kinds are rejected
naming the kind. -/
def validateKindRef (input : String) (question : QuestionConfig) : ValidationResult :=
  if question.type = "text" then ⟨true, none⟩
  else if question.type = "yesno" then
    if jsToLower (jsTrim input) ∈ ["yes", "no", "y", "n"] then ⟨true, none⟩
    else ⟨false,
      some "Invalid input. Expected: yes, no, y, or n (case-insensitive). Please try again."⟩
  else if question.type = "multiple-choice" then
    match question.choices with
    | none => ⟨false, some "No choices defined for this question."⟩
    | some choices =>
      if choices = [] then ⟨false, some "No choices defined for this question."⟩
      else if jsTrim input ∈ choices then ⟨true, none⟩
      else ⟨false,
        some ("Invalid choice. Expected one of: " ++ String.intercalate ", " choices
          ++ ". Please try again.")⟩
  else ⟨false, some ("Unknown question type: " ++ question.type)⟩

/-- C3: on any raw input whose trimmed form is non-empty, `validate` agrees
with the kind-dispatch reference definition for every question kind
(including unknown kinds). -/
theorem validate_kind_dispatch (input : String) (question : QuestionConfig)
    (h : jsTrim input ≠ "") :
    validate input question = validateKindRef input question := by
  unfold validate validateKindRef validateText validateYesNo validateMultipleChoice
  rcases hch : question.choices with _ | choices
  · simp [h, hch]
  · simp only [h, if_neg h, hch, List.length_eq_zero]
    rfl

/-- Witness for C3 at the multiple-choice example of the specification. -/
theorem validate_kind_dispatch_witness :
    jsTrim "Red" ≠ "" ∧
      validate "Red" ⟨"qc", "Pick a color", "multiple-choice", some ["Red", "Blue"], none⟩ =
        validateKindRef "Red" ⟨"qc", "Pick a color", "multiple-choice", some ["Red", "Blue"], none⟩ :=
  ⟨by decide, validate_kind_dispatch "Red"
    ⟨"qc", "Pick a color", "multiple-choice", some ["Red", "Blue"], none⟩ (by decide)⟩

/-- Witness for C10 at the specification's example condition. -/
theorem shouldDisplay_depends_only_on_referenced_witness :
    (⟨"q3", "What kind of pet?", "multiple-choice", some ["Dog", "Cat", "Bird"],
        some ⟨"q2", .many ["yes", "y"]⟩⟩ : QuestionConfig).condition =
        some ⟨"q2", .many ["yes", "y"]⟩ ∧
    mapGet [("q2", "YES")] "q2" = mapGet [("q1", "nope"), ("q2", "YES")] "q2" ∧
    shouldDisplay ⟨"q3", "What kind of pet?", "multiple-choice", some ["Dog", "Cat", "Bird"],
        some ⟨"q2", .many ["yes", "y"]⟩⟩ [("q2", "YES")] =
      shouldDisplay ⟨"q3", "What kind of pet?", "multiple-choice", some ["Dog", "Cat", "Bird"],
        some ⟨"q2", .many ["yes", "y"]⟩⟩ [("q1", "nope"), ("q2", "YES")] :=
  ⟨rfl, by decide,
    shouldDisplay_depends_only_on_referenced _ ⟨"q2", .many ["yes", "y"]⟩
      [("q2", "YES")] [("q1", "nope"), ("q2", "YES")] rfl (by decide)⟩

/-! ### Session engine, from `QuestionnaireEngine` in `src/src/engine.ts` -/

/-- One console interaction performed through the `UserInputHandler`
capability. -/
inductive Interaction where
  | prompt (message : String)
  | display (message : String)
  | displayError (message : String)
deriving DecidableEq, Repr

/-- The prompt text built by `promptWithValidation`: question text, plus the
choice list for a multiple-choice question with a (present) `choices` array,
plus a `(yes/no)` hint for a yes/no question, then the `> ` marker. -/
def promptMessage (question : QuestionConfig) : String :=
  (if question.type = "multiple-choice" then
    match question.choices with
    | some choices => question.text ++ "\nChoices: " ++ String.intercalate ", " choices
    | none => question.text
  else if question.type = "yesno" then question.text ++ " (yes/no)"
  else question.text) ++ "\n> "

/-- `QuestionnaireEngine.promptWithValidation`: prompt, read a raw line,
validate; on success return the trimmed input, otherwise surface the error
message (when present) via `displayError` and repeat the same question.  The
remaining input lines and the interactions performed are returned
explicitly; running out of scripted input is `none` (the real loop would
still be waiting on the user). -/
def promptWithValidation (question : QuestionConfig) :
    List String → Option (String × List String × List Interaction)
  | [] => none
  | input :: rest =>
    let validationResult := validate input question
    if validationResult.isValid then
      some (jsTrim input, rest, [Interaction.prompt (promptMessage question)])
    else
      let errs := match validationResult.errorMessage with
        | some m => [Interaction.displayError m]
        | none => []
      match promptWithValidation question rest with
      | none => none
      | some (response, remaining, tr) =>
        some (response, remaining, Interaction.prompt (promptMessage question) :: (errs ++ tr))

/-- The question loop of `QuestionnaireEngine.runSession`: for each question
in document order, skip it when `shouldDisplay` is false (no prompt, no
record), otherwise run the retry loop and store the response under the
question's id. -/
def runQuestions :
    List QuestionConfig → List String → AnswerMap →
      Option (AnswerMap × List String × List Interaction)
  | [], inputs, responses => some (responses, inputs, [])
  | question :: rest, inputs, responses =>
    if shouldDisplay question responses then
      match promptWithValidation question inputs with
      | none => none
      | some (response, remaining, tr) =>
        match runQuestions rest remaining (mapSet responses question.id response) with
        | none => none
        | some (out, rem, tr2) => some (out, rem, tr ++ tr2)
    else
      runQuestions rest inputs responses

/-- A question/answer pair of the summary view. -/
structure QA where
  question : String
  answer : String
deriving DecidableEq, Repr

/-- `SessionResult` from `src/src/engine.ts`: session id, the completed
answer map, and the originating configuration. -/
structure SessionResult where
  id : String
  responses : AnswerMap
  config : QuestionnaireConfig
deriving DecidableEq, Repr

/-- `SessionResult.json`: walk the response entries in insertion order,
resolve each id against the document's question list, and push a
(question text, answer) pair when the lookup succeeds. -/
def SessionResult.json (r : SessionResult) : List QA :=
  r.responses.foldl (fun result p =>
    match r.config.questions.find? (fun q => q.id == p.1) with
    | some question => result ++ [⟨question.text, p.2⟩]
    | none => result) []

/-- The title banner displayed at session start. -/
def titleBanner (title : String) : String := "\n=== " ++ title ++ " ===\n"

/-- `QuestionnaireEngine.runSession`: fetch the configuration once (a
failure propagates unmodified), display the title, run the question loop on
an initially empty answer map, and wrap the answers in a `SessionResult`. -/
def runSession (loadResult : Except String QuestionnaireConfig) (sessionId : String)
    (inputs : List String) :
    Except String (Option (SessionResult × List String × List Interaction)) :=
  match loadResult with
  | .error e => .error e
  | .ok config =>
    match runQuestions config.questions inputs [] with
    | none => .ok none
    | some (responses, rest, tr) =>
      .ok (some (⟨sessionId, responses, config⟩, rest,
        Interaction.display (titleBanner config.title) :: tr))

/-- C6: a configuration-provider failure propagates out of `runSession`
unmodified — the same error, no `SessionResult`, and no interaction at all
(no title display, no prompt), whatever input would have been available. -/
theorem runSession_propagates_load_error (e : String) (sessionId : String)
    (inputs : List String) :
    runSession (Except.error e) sessionId inputs = Except.error e := rfl

/-! ### C8: the summary projection -/

theorem foldl_push_eq_filterMap {α β : Type} (f : α → Option β) :
    ∀ (l : List α) (init : List β),
      l.foldl (fun result p => result ++ (f p).toList) init = init ++ l.filterMap f := by
  intro l
  induction l with
  | nil => intro init; simp
  | cons a t ih =>
    intro init
    cases hf : f a <;> simp [hf, ih, List.filterMap_cons]

/-- C8: `json` produces, in answer-set insertion order, exactly one
(question text, answer) pair per recorded entry whose id resolves to a
question of the originating document, and silently omits entries whose id
resolves to no question. -/
theorem json_eq_resolved_pairs (r : SessionResult) :
    r.json = r.responses.filterMap (fun p =>
      (r.config.questions.find? (fun q => q.id == p.1)).map (fun q => QA.mk q.text p.2)) := by
  unfold SessionResult.json
  have hfun : (fun (result : List QA) (p : String × String) =>
      match r.config.questions.find? (fun q => q.id == p.1) with
      | some question => result ++ [(⟨question.text, p.2⟩ : QA)]
      | none => result) =
      (fun (result : List QA) (p : String × String) =>
        result ++ ((r.config.questions.find? (fun q => q.id == p.1)).map
            (fun q => QA.mk q.text p.2)).toList) := by
    funext result p
    cases hf : r.config.questions.find? (fun q => q.id == p.1) <;> simp [hf]
  rw [hfun]
  simpa using foldl_push_eq_filterMap (fun p =>
    (r.config.questions.find? (fun q => q.id == p.1)).map (fun q => QA.mk q.text p.2))
    r.responses []

/-! ### C5: the retry loop -/

/-- The interactions the retry loop performs while consuming a run of
invalid inputs: for each invalid input, the question's prompt followed by
exactly one `displayError` carrying the validator's message. -/
def retryTrace (question : QuestionConfig) : List String → List Interaction
  | [] => []
  | b :: t =>
    Interaction.prompt (promptMessage question) ::
      Interaction.displayError (((validate b question).errorMessage).getD "") ::
        retryTrace question t

/-- C5: feeding a run of invalid inputs followed by a valid one, the retry
loop surfaces each invalid input's reason via `displayError` exactly once,
re-prompts the same question each time, and finally returns the trimmed
valid input; moreover the invalid inputs leave the engine's resulting
answer map (and remaining input) exactly as if only the valid input had
been supplied, so no recorded answer is changed or removed by them. -/
theorem retry_loop_behavior (question : QuestionConfig) (bads : List String)
    (good : String) (rest : List String)
    (hbad : ∀ b ∈ bads, (validate b question).isValid = false)
    (hgood : (validate good question).isValid = true) :
    promptWithValidation question (bads ++ good :: rest) =
      some (jsTrim good, rest,
        retryTrace question bads ++ [Interaction.prompt (promptMessage question)]) ∧
    ∀ (qs : List QuestionConfig) (responses : AnswerMap),
      shouldDisplay question responses = true →
      (runQuestions (question :: qs) (bads ++ good :: rest) responses).map
          (fun r => (r.1, r.2.1)) =
        (runQuestions (question :: qs) (good :: rest) responses).map
          (fun r => (r.1, r.2.1)) := by
  have hprompt : promptWithValidation question (bads ++ good :: rest) =
      some (jsTrim good, rest,
        retryTrace question bads ++ [Interaction.prompt (promptMessage question)]) := by
    induction bads with
    | nil =>
      simp [promptWithValidation, hgood, retryTrace]
    | cons b t ih =>
      have hb : (validate b question).isValid = false := hbad b (by simp)
      have ht : ∀ x ∈ t, (validate x question).isValid = false := by
        intro x hx; exact hbad x (by simp [hx])
      have ihr := ih ht
      rcases validate_message_shape b question with ⟨hv, _⟩ | ⟨_, m, hm, _⟩
      · rw [hb] at hv; cases hv
      · simp [promptWithValidation, hb, ihr, hm, retryTrace]
  refine ⟨hprompt, ?_⟩
  intro qs responses hD
  have hgoodPrompt : promptWithValidation question (good :: rest) =
      some (jsTrim good, rest, [Interaction.prompt (promptMessage question)]) := by
    simp [promptWithValidation, hgood]
  simp only [runQuestions, hD, if_true, hprompt, hgoodPrompt]
  cases hrec : runQuestions qs rest (mapSet responses question.id (jsTrim good)) with
  | none => rfl
  | some r => rfl

/-- Witness for C5 at the specification's end-to-end retry example: empty
input for `q1`, then `"Jane"`; one `displayError` with the empty-input
message, then the answer `"Jane"`. -/
theorem retry_loop_behavior_witness :
    (∀ b ∈ [""], (validate b ⟨"q1", "What is your name?", "text", none, none⟩).isValid = false) ∧
    (validate "Jane" ⟨"q1", "What is your name?", "text", none, none⟩).isValid = true ∧
    promptWithValidation ⟨"q1", "What is your name?", "text", none, none⟩ ["", "Jane"] =
      some ("Jane",  [],
        retryTrace ⟨"q1", "What is your name?", "text", none, none⟩ [""] ++
          [Interaction.prompt (promptMessage ⟨"q1", "What is your name?", "text", none, none⟩)]) :=
  ⟨by decide, by decide,
    (retry_loop_behavior ⟨"q1", "What is your name?", "text", none, none⟩ [""] "Jane" []
      (by decide) (by decide)).1⟩

/-! ### C1: characterization of a completed session

`runQuestionsT` is `runQuestions` instrumented to record, per question in
document order, either an `answered` event (with the answer map seen at its
turn, the recorded answer, and the interactions of its retry loop) or a
`skipped` event (which, matching the `continue` branch of the engine loop,
carries no interactions: a skipped question is never prompted). -/

/-- Per-question event of an instrumented run. -/
inductive QEvent where
  | answered (question : QuestionConfig) (seen : AnswerMap) (answer : String)
      (tr : List Interaction)
  | skipped (question : QuestionConfig) (seen : AnswerMap)
deriving DecidableEq, Repr

/-- The question an event is about. -/
def QEvent.questionOf : QEvent → QuestionConfig
  | .answered q _ _ _ => q
  | .skipped q _ => q

/-- The answer-map entry an event contributes. -/
def QEvent.entryOf : QEvent → Option (String × String)
  | .answered q _ a _ => some (q.id, a)
  | .skipped _ _ => none

/-- The interactions an event performed (none for a skipped question). -/
def QEvent.traceOf : QEvent → List Interaction
  | .answered _ _ _ t => t
  | .skipped _ _ => []

/-- Concatenated interactions of a run's events. -/
def tracesOf : List QEvent → List Interaction
  | [] => []
  | e :: t => e.traceOf ++ tracesOf t

/-- `runQuestions`, additionally recording one event per question. -/
def runQuestionsT :
    List QuestionConfig → List String → AnswerMap → Option (List QEvent × AnswerMap)
  | [], _, responses => some ([], responses)
  | question :: rest, inputs, responses =>
    if shouldDisplay question responses then
      match promptWithValidation question inputs with
      | none => none
      | some (response, remaining, tr) =>
        match runQuestionsT rest remaining (mapSet responses question.id response) with
        | none => none
        | some (evs, out) => some (QEvent.answered question responses response tr :: evs, out)
    else
      match runQuestionsT rest inputs responses with
      | none => none
      | some (evs, out) => some (QEvent.skipped question responses :: evs, out)

/-- A successful retry loop returns the trim of some raw input accepted by
`validate`. -/
theorem promptWithValidation_shape (question : QuestionConfig) :
    ∀ (inputs : List String) (ans : String) (rest : List String) (tr : List Interaction),
      promptWithValidation question inputs = some (ans, rest, tr) →
      ∃ raw, (validate raw question).isValid = true ∧ ans = jsTrim raw := by
  intro inputs
  induction inputs with
  | nil => intro ans rest tr h; simp [promptWithValidation] at h
  | cons input t ih =>
    intro ans rest tr h
    by_cases hv : (validate input question).isValid = true
    · refine ⟨input, hv, ?_⟩
      simp [promptWithValidation, hv] at h
      exact h.1.symm
    · simp only [promptWithValidation, hv, Bool.false_eq_true, if_false] at h
      rcases hrec : promptWithValidation question t with _ | ⟨a, r, tr2⟩
      · rw [hrec] at h; simp at h
      · rw [hrec] at h
        simp only [Option.some.injEq, Prod.mk.injEq] at h
        obtain ⟨ha, _, _⟩ := h
        obtain ⟨raw, hraw, heq⟩ := ih a r tr2 hrec
        exact ⟨raw, hraw, ha ▸ heq⟩

/-- When the key is fresh, `Map.set` appends a new entry. -/
theorem mapSet_eq_append (m : AnswerMap) (k v : String) (h : ∀ p ∈ m, p.1 ≠ k) :
    mapSet m k v = m ++ [(k, v)] := by
  have hfalse : m.any (fun p => p.1 == k) = false := by
    rw [List.any_eq_false]
    intro p hp
    simpa using h p hp
  simp [mapSet, hfalse]

/-- Every entry contributed by a run's events carries the id of one of the
events' questions. -/
theorem entryOf_mem_ids (evs : List QEvent) (p : String × String)
    (h : p ∈ evs.filterMap QEvent.entryOf) :
    p.1 ∈ (evs.map QEvent.questionOf).map QuestionConfig.id := by
  rcases List.mem_filterMap.mp h with ⟨e, he, hent⟩
  cases e with
  | answered q a ans t =>
    simp only [QEvent.entryOf, Option.some.injEq] at hent
    subst hent
    exact List.mem_map.mpr ⟨q, List.mem_map.mpr ⟨_, he, rfl⟩, rfl⟩
  | skipped q a => simp [QEvent.entryOf] at hent

/-- Characterization of the engine's question loop on a document with
pairwise-distinct question ids, relative to an answer map whose keys avoid
those ids: the instrumented run produces the same final answer map; there
is exactly one event per question in document order; the final map is the
initial one extended by exactly one entry per answered question, in order;
the interaction trace is exactly the concatenation of the answered events'
interactions (skipped questions contribute none, i.e. are never prompted);
every answered event was displayed at its turn and stores the trim of an
input accepted by `validate`; and every skipped event was hidden at its
turn and its question's id is absent from the final map. -/
theorem runQuestions_characterization :
    ∀ (qs : List QuestionConfig) (inputs : List String) (acc : AnswerMap),
      (∀ p ∈ acc, p.1 ∉ qs.map QuestionConfig.id) →
      (qs.map QuestionConfig.id).Nodup →
      ∀ out rem tr, runQuestions qs inputs acc = some (out, rem, tr) →
      ∃ evs, runQuestionsT qs inputs acc = some (evs, out) ∧
        evs.map QEvent.questionOf = qs ∧
        out = acc ++ evs.filterMap QEvent.entryOf ∧
        tr = tracesOf evs ∧
        (∀ q a ans t, QEvent.answered q a ans t ∈ evs →
          shouldDisplay q a = true ∧
            ∃ raw, (validate raw q).isValid = true ∧ ans = jsTrim raw) ∧
        (∀ q a, QEvent.skipped q a ∈ evs →
          shouldDisplay q a = false ∧ ∀ p ∈ out, p.1 ≠ q.id) := by
  intro qs
  induction qs with
  | nil =>
    intro inputs acc hd hN out rem tr h
    simp only [runQuestions, Option.some.injEq, Prod.mk.injEq] at h
    obtain ⟨h1, _, h3⟩ := h
    refine ⟨[], ?_, by simp, by simp [h1], by simp [tracesOf, h3], by simp, by simp⟩
    simp [runQuestionsT, h1]
  | cons q qs ih =>
    intro inputs acc hd hN out rem tr h
    have hqid_acc : ∀ p ∈ acc, p.1 ≠ q.id := by
      intro p hp heq
      exact hd p hp (by simp [heq])
    have hd_tail : ∀ p ∈ acc, p.1 ∉ qs.map QuestionConfig.id := by
      intro p hp hmem
      exact hd p hp (by simp [hmem])
    have hN_head : q.id ∉ qs.map QuestionConfig.id :=
      (List.nodup_cons.mp (by simpa using hN)).1
    have hN_tail : (qs.map QuestionConfig.id).Nodup :=
      (List.nodup_cons.mp (by simpa using hN)).2
    by_cases hD : shouldDisplay q acc = true
    · rw [runQuestions, if_pos hD] at h
      rcases hp : promptWithValidation q inputs with _ | ⟨ans, remaining, tr1⟩
      · rw [hp] at h; exact absurd h (by simp)
      · rw [hp] at h
        dsimp only at h
        rcases hr : runQuestions qs remaining (mapSet acc q.id ans) with _ | ⟨⟨out2, rem2, tr2⟩⟩
        · rw [hr] at h; exact absurd h (by simp)
        · rw [hr] at h
          dsimp only at h
          simp only [Option.some.injEq, Prod.mk.injEq] at h
          obtain ⟨hout2, hrem2, htr⟩ := h
          have hset : mapSet acc q.id ans = acc ++ [(q.id, ans)] :=
            mapSet_eq_append acc q.id ans hqid_acc
          have hd' : ∀ p ∈ acc ++ [(q.id, ans)], p.1 ∉ qs.map QuestionConfig.id := by
            intro p hp'
            rcases List.mem_append.mp hp' with hin | hin
            · exact hd_tail p hin
            · simp only [List.mem_singleton] at hin
              subst hin
              exact hN_head
          rw [hset] at hr
          obtain ⟨evs, hT, hmap, hout, htr2, hansP, hskipP⟩ :=
            ih remaining (acc ++ [(q.id, ans)]) hd' hN_tail out2 rem2 tr2 hr
          refine ⟨QEvent.answered q acc ans tr1 :: evs, ?_, ?_, ?_, ?_, ?_, ?_⟩
          · rw [runQuestionsT, if_pos hD, hp]
            dsimp only
            rw [hset, hT, hout2]
          · simp [QEvent.questionOf, hmap]
          · rw [← hout2, hout]
            simp [QEvent.entryOf]
          · rw [← htr, htr2]
            simp [tracesOf, QEvent.traceOf]
          · intro q' a' ans' t' hmem
            rcases List.mem_cons.mp hmem with hhead | htail
            · cases hhead
              exact ⟨hD, promptWithValidation_shape q inputs ans remaining tr1 hp⟩
            · exact hansP q' a' ans' t' htail
          · intro q' a' hmem
            rcases List.mem_cons.mp hmem with hhead | htail
            · cases hhead
            · obtain ⟨h1, h2⟩ := hskipP q' a' htail
              refine ⟨h1, ?_⟩
              rw [← hout2]
              exact h2
    · have hDf : shouldDisplay q acc = false := by
        cases hDb : shouldDisplay q acc
        · rfl
        · exact absurd hDb hD
      rw [runQuestions, if_neg hD] at h
      obtain ⟨evs, hT, hmap, hout, htr2, hansP, hskipP⟩ :=
        ih inputs acc hd_tail hN_tail out rem tr h
      refine ⟨QEvent.skipped q acc :: evs, ?_, ?_, ?_, ?_, ?_, ?_⟩
      · rw [runQuestionsT, if_neg hD, hT]
      · simp [QEvent.questionOf, hmap]
      · rw [hout]
        simp [QEvent.entryOf]
      · rw [htr2]
        simp [tracesOf, QEvent.traceOf]
      · intro q' a' ans' t' hmem
        rcases List.mem_cons.mp hmem with hhead | htail
        · cases hhead
        · exact hansP q' a' ans' t' htail
      · intro q' a' hmem
        rcases List.mem_cons.mp hmem with hhead | htail
        · injection hhead with e1 e2
          subst e1 e2
          refine ⟨hDf, ?_⟩
          intro p hp' heq
          rw [hout] at hp'
          rcases List.mem_append.mp hp' with hin | hin
          · exact hqid_acc p hin heq
          · have := entryOf_mem_ids evs p hin
            rw [hmap] at this
            rw [heq] at this
            exact hN_head this
        · exact hskipP q' a' htail

/-- The conclusion of C1 for a completed run of `runSession`: one event per
question in document order; the answer set holds exactly one entry per
answered (displayed) question, in order, mapping the question's id to the
trimmed accepted input; the session's interactions are the title banner
followed by exactly the answered events' retry-loop interactions (skipped
questions contribute none — they are never prompted); and a skipped
question was hidden at its turn and has no entry in the answer set. -/
def sessionCharacterization (config : QuestionnaireConfig) (inputs : List String)
    (res : SessionResult) (tr : List Interaction) : Prop :=
  ∃ evs, runQuestionsT config.questions inputs [] = some (evs, res.responses) ∧
    evs.map QEvent.questionOf = config.questions ∧
    res.responses = evs.filterMap QEvent.entryOf ∧
    tr = Interaction.display (titleBanner config.title) :: tracesOf evs ∧
    (∀ q a ans t, QEvent.answered q a ans t ∈ evs →
      shouldDisplay q a = true ∧
        ∃ raw, (validate raw q).isValid = true ∧ ans = jsTrim raw) ∧
    (∀ q a, QEvent.skipped q a ∈ evs →
      shouldDisplay q a = false ∧ ∀ p ∈ res.responses, p.1 ≠ q.id)

/-- C1: for a document with pairwise-distinct question ids and any scripted
input on which `runSession` completes, the resulting answer set contains
exactly one entry per question displayed at its turn — the question's id
mapped to the trimmed accepted input — while every question hidden at its
turn is never prompted and has no entry (in particular one whose condition
references a skipped, hence unanswered, question). -/
theorem runSession_answer_set (config : QuestionnaireConfig) (sessionId : String)
    (inputs : List String) (res : SessionResult) (rest : List String)
    (tr : List Interaction)
    (hN : (config.questions.map QuestionConfig.id).Nodup)
    (h : runSession (Except.ok config) sessionId inputs = Except.ok (some (res, rest, tr))) :
    sessionCharacterization config inputs res tr := by
  unfold runSession at h
  dsimp only at h
  rcases hr : runQuestions config.questions inputs [] with _ | ⟨⟨responses, rest2, tr2⟩⟩
  · rw [hr] at h; exact absurd h (by simp)
  · rw [hr] at h
    dsimp only at h
    simp only [Except.ok.injEq, Option.some.injEq, Prod.mk.injEq] at h
    obtain ⟨hres, hrest, htr⟩ := h
    subst hres
    obtain ⟨evs, hT, hmap, hout, htr2, hansP, hskipP⟩ :=
      runQuestions_characterization config.questions inputs [] (by simp) hN
        responses rest2 tr2 hr
    refine ⟨evs, hT, hmap, ?_, ?_, hansP, ?_⟩
    · simpa using hout
    · rw [← htr, htr2]
    · intro q a hmem
      obtain ⟨h1, h2⟩ := hskipP q a hmem
      exact ⟨h1, h2⟩

/-- The three-question example document of the specification (§8). -/
def exampleDoc : QuestionnaireConfig :=
  ⟨"Pet Survey",
    [⟨"q1", "What is your name?", "text", none, none⟩,
     ⟨"q2", "Do you have a pet?", "yesno", none, none⟩,
     ⟨"q3", "What kind of pet?", "multiple-choice", some ["Dog", "Cat", "Bird"],
       some ⟨"q2", .many ["yes", "y"]⟩⟩]⟩

/-- The answer set produced by the example inputs `John Doe`, `yes`, `Dog`. -/
def exampleResult : SessionResult :=
  ⟨"s1", [("q1", "John Doe"), ("q2", "yes"), ("q3", "Dog")], exampleDoc⟩

/-- The interactions of the example session. -/
def exampleTrace : List Interaction :=
  [Interaction.display "\n=== Pet Survey ===\n",
   Interaction.prompt "What is your name?\n> ",
   Interaction.prompt "Do you have a pet? (yes/no)\n> ",
   Interaction.prompt "What kind of pet?\nChoices: Dog, Cat, Bird\n> "]

/-- Witness for C1 at the specification's end-to-end example. -/
theorem runSession_answer_set_witness :
    (exampleDoc.questions.map QuestionConfig.id).Nodup ∧
    runSession (Except.ok exampleDoc) "s1" ["John Doe", "yes", "Dog"] =
      Except.ok (some (exampleResult, [], exampleTrace)) ∧
    sessionCharacterization exampleDoc ["John Doe", "yes", "Dog"] exampleResult exampleTrace :=
  ⟨by decide, by rfl,
    runSession_answer_set exampleDoc "s1" ["John Doe", "yes", "Dog"] exampleResult []
      exampleTrace (by decide) (by rfl)⟩

/-! ### C7: orchestration-layer handling of configuration errors

`ConfigLoader.validateConfig` (in the loader appended to
`src/src/condition-evaluator.ts`) raises schema errors over the raw parsed
JSON value, and `start` in `src/src/main.ts` classifies a propagated error
as an unrecoverable configuration error by testing its message for the
substrings `Configuration file not found`, `Failed to parse JSON` and
`Configuration must`; only then does it close the handler and exit with
status 1, otherwise it offers a retry prompt. -/

/-- A parsed JSON value (plus JavaScript's `undefined` for absent fields). -/
inductive JValue where
  | undefined
  | null
  | jbool (b : Bool)
  | jnum (n : Int)
  | jstr (s : String)
  | jarr (l : List JValue)
  | jobj (l : List (String × JValue))

/-- Whether a value is JavaScript's `undefined` (`v === undefined`). -/
def isUndefined : JValue → Bool
  | .undefined => true
  | _ => false

/-- JavaScript truthiness of a value. -/
def truthy : JValue → Bool
  | .undefined => false
  | .null => false
  | .jbool b => b
  | .jnum n => n != 0
  | .jstr s => s != ""
  | .jarr _ => true
  | .jobj _ => true

/-- `typeof v === 'object'` (true for objects, arrays and `null`). -/
def typeofObject : JValue → Bool
  | .null => true
  | .jarr _ => true
  | .jobj _ => true
  | _ => false

/-- `typeof v === 'string'`. -/
def typeofString : JValue → Bool
  | .jstr _ => true
  | _ => false

/-- Property access `o[k]`: `undefined` when the field is absent. -/
def getField : JValue → String → JValue
  | .jobj l, k => ((l.find? (fun p => p.1 == k)).map Prod.snd).getD .undefined
  | _, _ => .undefined

/-- The string content of a JSON string value. -/
def strVal : JValue → String
  | .jstr s => s
  | _ => ""

/-- `ConfigLoader.validateCondition`: shape checks for a question's
`condition`, reported against the question's index. -/
def validateCondition (condition : JValue) (questionIndex : Nat) : Except String Unit :=
  if !truthy condition || !typeofObject condition then
    .error ("Question at index " ++ toString questionIndex
      ++ " has invalid condition. Must be an object")
  else if !truthy (getField condition "questionId")
      || !typeofString (getField condition "questionId") then
    .error ("Question at index " ++ toString questionIndex
      ++ " condition must have a \"questionId\" field of type string")
  else if isUndefined (getField condition "expectedAnswer") then
    .error ("Question at index " ++ toString questionIndex
      ++ " condition must have an \"expectedAnswer\" field")
  else
    let ea := getField condition "expectedAnswer"
    let isString := typeofString ea
    let isStringArray := match ea with
      | .jarr l => decide (0 < l.length) && l.all typeofString
      | _ => false
    if !isString && !isStringArray then
      .error ("Question at index " ++ toString questionIndex
        ++ " condition \"expectedAnswer\" must be a string or non-empty array of strings")
    else .ok ()

/-- The trailing `condition` check of `ConfigLoader.validateQuestion`. -/
def checkQuestionCondition (question : JValue) (index : Nat) : Except String Unit :=
  if isUndefined (getField question "condition") then .ok ()
  else validateCondition (getField question "condition") index

/-- `ConfigLoader.validateQuestion`: shape checks for one question, reported
against its 0-based index, first violation wins. -/
def validateQuestion (question : JValue) (index : Nat) : Except String Unit :=
  if !truthy question || !typeofObject question then
    .error ("Question at index " ++ toString index ++ " must be an object")
  else if !truthy (getField question "id") || !typeofString (getField question "id") then
    .error ("Question at index " ++ toString index
      ++ " must have an \"id\" field of type string")
  else if !truthy (getField question "text") || !typeofString (getField question "text") then
    .error ("Question at index " ++ toString index
      ++ " must have a \"text\" field of type string")
  else if !truthy (getField question "type") || !typeofString (getField question "type") then
    .error ("Question at index " ++ toString index
      ++ " must have a \"type\" field of type string")
  else if !(["text", "yesno", "multiple-choice"].contains (strVal (getField question "type"))) then
    .error ("Question at index " ++ toString index ++ " has invalid type \""
      ++ strVal (getField question "type") ++ "\". Must be one of: text, yesno, multiple-choice")
  else if strVal (getField question "type") = "multiple-choice" then
    match getField question "choices" with
    | .jarr choices =>
      if choices.length = 0 then
        .error ("Question at index " ++ toString index
          ++ " with type \"multiple-choice\" must have a non-empty \"choices\" array")
      else if !(choices.all typeofString) then
        .error ("Question at index " ++ toString index
          ++ " has invalid choices. All choices must be strings")
      else checkQuestionCondition question index
    | _ =>
      .error ("Question at index " ++ toString index
        ++ " with type \"multiple-choice\" must have a non-empty \"choices\" array")
  else checkQuestionCondition question index

/-- The `forEach` over the questions: first violation wins. -/
def validateQuestionList : List JValue → Nat → Except String Unit
  | [], _ => .ok ()
  | question :: rest, index =>
    match validateQuestion question index with
    | .error e => .error e
    | .ok _ => validateQuestionList rest (index + 1)

/-- `ConfigLoader.validateConfig`: top-level shape checks of the parsed
configuration, then the per-question checks. -/
def validateConfig (config : JValue) : Except String Unit :=
  if !truthy config || !typeofObject config then
    .error "Configuration must be an object"
  else if !truthy (getField config "title") || !typeofString (getField config "title") then
    .error "Configuration must have a \"title\" field of type string"
  else
    match getField config "questions" with
    | .jarr questions =>
      if questions.length = 0 then .error "Configuration must have at least one question"
      else validateQuestionList questions 0
    | _ => .error "Configuration must have a \"questions\" field of type array"

/-- Whether the character list `needle` occurs at the head of `hay`. -/
def charsHaveHead : List Char → List Char → Bool
  | [], _ => true
  | _ :: _, [] => false
  | a :: t, b :: s => a == b && charsHaveHead t s

/-- Whether the character list `needle` occurs anywhere in `hay`. -/
def charsInclude : List Char → List Char → Bool
  | [], needle => charsHaveHead needle []
  | a :: t, needle => charsHaveHead needle (a :: t) || charsInclude t needle

/-- JavaScript `String.prototype.includes`. -/
def strIncludes (s pat : String) : Bool := charsInclude s.data pat.data

/-- The configuration-error test of `start` in `src/src/main.ts`: the error
message contains one of three fixed substrings. -/
def isConfigErrorMessage (message : String) : Bool :=
  strIncludes message "Configuration file not found" ||
  strIncludes message "Failed to parse JSON" ||
  strIncludes message "Configuration must"

/-- What the orchestration layer does with a session error. -/
inductive ErrorOutcome where
  | fatalExit
  | offerRetry
deriving DecidableEq, Repr

/-- The session-error branch of `start` in `src/src/main.ts`: after
displaying the message, a recognized configuration error closes the input
handler and exits with status 1 (no retry); any other error leads to a
`try again?` prompt. -/
def handleSessionError (message : String) : ErrorOutcome :=
  if isConfigErrorMessage message then .fatalExit else .offerRetry

/-- A structurally valid JSON document whose first question lacks an `id`:
`{"title": "Sample", "questions": [{"text": "What is your name?",
"type": "text"}]}`. -/
def missingIdDoc : JValue :=
  .jobj [("title", .jstr "Sample"),
    ("questions", .jarr [.jobj [("text", .jstr "What is your name?"), ("type", .jstr "text")]])]

/-- C7 (refuted — the claim matches the spec's intent but not the code):
loading `missingIdDoc` raises the schema error `Question at index 0 must
have an "id" field of type string`, a `ConfigSchemaError`; yet that message
contains none of the three substrings `start` tests for, so the
orchestration layer offers a retry prompt instead of treating the error as
fatal.  (The last three conjuncts show the three message families the code
does treat as fatal, so per-question schema errors are the exception.) -/
theorem schemaError_gets_retry_offer :
    validateConfig missingIdDoc =
      Except.error "Question at index 0 must have an \"id\" field of type string" ∧
    isConfigErrorMessage "Question at index 0 must have an \"id\" field of type string" = false ∧
    handleSessionError "Question at index 0 must have an \"id\" field of type string" =
      ErrorOutcome.offerRetry ∧
    isConfigErrorMessage "Configuration file not found: questionnaire.json" = true ∧
    isConfigErrorMessage "Failed to parse JSON: Unexpected end of JSON input" = true ∧
    isConfigErrorMessage "Configuration must have at least one question" = true := by
  refine ⟨by rfl, by rfl, by rfl, by rfl, by rfl, by rfl⟩

end Questionnaire
